import Mathlib

/-!
Verification development for the voiceloom repository: a shallow embedding of
the job state machine (`app/domain/states.py`), the content cache
(`app/utils/cache.py`), the script parser (`app/services/process/mastering.py`),
the alignment engine (`app/services/align/aligner.py`), the chunked synthesis
merger (`app/services/synth/chunking.py`) and the job orchestrator
(`app/services/jobs/manager.py`), together with theorems settling the spec
claims about them.
-/

set_option maxHeartbeats 1600000

/-! ## Job lifecycle states — model of `app/domain/states.py` -/

/-- `JobState` enum from `states.py`. -/
inductive JobState where
  | PENDING
  | SYNTHESIZING
  | MASTERING
  | ALIGNING
  | READY
  | FAILED
  deriving DecidableEq, Repr

/-- The string value of each enum member. -/
def JobState.value : JobState → String
  | .PENDING => "PENDING"
  | .SYNTHESIZING => "SYNTHESIZING"
  | .MASTERING => "MASTERING"
  | .ALIGNING => "ALIGNING"
  | .READY => "READY"
  | .FAILED => "FAILED"

/-- `TERMINAL_STATES` from `states.py`. -/
def TERMINAL_STATES : List JobState := [.READY, .FAILED]

/-- `_ALLOWED` table from `states.py`, as a function from source state to the
set (list) of allowed destination states. -/
def ALLOWED : JobState → List JobState
  | .PENDING => [.SYNTHESIZING, .FAILED]
  | .SYNTHESIZING => [.MASTERING, .FAILED]
  | .MASTERING => [.ALIGNING, .FAILED]
  | .ALIGNING => [.READY, .FAILED]
  | .READY => []
  | .FAILED => []

/-- `is_terminal` from `states.py`. -/
def is_terminal (s : JobState) : Bool := TERMINAL_STATES.contains s

/-- `can_transition` from `states.py`: `dst in _ALLOWED.get(src, set())`. -/
def can_transition (src dst : JobState) : Bool := (ALLOWED src).contains dst

/-! ## Python string primitives shared by the embedded modules

Scripts in this repository are ASCII/latin text; we model Python `str` as
`List Char` of unicode code points, and the Python `\s` class (as used by the
`re` module on these inputs) by the six ASCII whitespace characters. -/

/-- Python `\s` / `str.strip` whitespace class (ASCII range). -/
def pyIsSpace (c : Char) : Bool :=
  c = ' ' || c = '\t' || c = '\n' || c = '\r' || c = '\x0b' || c = '\x0c'

/-- Python `str.strip()` on a list of characters. -/
def pyStrip (s : List Char) : List Char :=
  ((s.dropWhile pyIsSpace).reverse.dropWhile pyIsSpace).reverse

/-- Worker for `pySplitlines`. -/
def pySplitlinesGo : List Char → List Char → List (List Char)
  | [], acc => [acc.reverse]
  | '\r' :: '\n' :: rest, acc => acc.reverse :: pySplitlinesGo rest []
  | '\r' :: rest, acc => acc.reverse :: pySplitlinesGo rest []
  | '\n' :: rest, acc => acc.reverse :: pySplitlinesGo rest []
  | c :: rest, acc => pySplitlinesGo rest (c :: acc)

/-- Python `str.splitlines()` restricted to the line breaks `\n`, `\r\n`, `\r`
(the only ones occurring in this repository's inputs). -/
def pySplitlines : List Char → List (List Char)
  | [] => []
  | cs => pySplitlinesGo cs []

/-- Worker for `collapseRuns`; `inRun` records whether the previous character
belonged to a run being replaced. -/
def collapseRunsGo (p : Char → Bool) (inRun : Bool) : List Char → List Char
  | [] => []
  | c :: rest =>
    if p c then
      if inRun then collapseRunsGo p true rest
      else ' ' :: collapseRunsGo p true rest
    else c :: collapseRunsGo p false rest

/-- Replace every maximal run of characters satisfying `p` by a single space
(`re.sub` of a `CLASS+` pattern by `" "`). -/
def collapseRuns (p : Char → Bool) (s : List Char) : List Char := collapseRunsGo p false s

/-- `re.sub(r"\s+", " ", s)`: collapse every maximal whitespace run to one
single space. -/
def collapseWS (s : List Char) : List Char := collapseRuns pyIsSpace s

/-- `re.sub(r"\s+", "", s)` (as in the cache's `_normalize_script`): delete all
whitespace characters. -/
def deleteWS (s : List Char) : List Char := s.filter (fun c => !(pyIsSpace c))

/-- Python `str.split()` (split on whitespace runs, dropping empty pieces). -/
def pySplit (s : List Char) : List (List Char) :=
  ((collapseWS (pyStrip s)).splitOn ' ').filter (fun p => !p.isEmpty)

deriving instance DecidableEq for Except

/-! ## UTF-8 and SHA-256 (used by `hashlib.sha256(blob.encode("utf-8"))`) -/

/-- UTF-8 encoding of one code point. -/
def utf8EncodeChar (c : Char) : List Nat :=
  let n := c.toNat
  if n < 128 then [n]
  else if n < 2048 then [192 + n / 64, 128 + n % 64]
  else if n < 65536 then [224 + n / 4096, 128 + (n / 64) % 64, 128 + n % 64]
  else [240 + n / 262144, 128 + (n / 4096) % 64, 128 + (n / 64) % 64, 128 + n % 64]

/-- UTF-8 encoding of a string (as a byte list). -/
def utf8Encode (s : List Char) : List Nat := (s.map utf8EncodeChar).flatten

/-- Truncation to a 32-bit word. -/
def w32 (n : Nat) : Nat := n % 4294967296

/-- 32-bit right rotation. -/
def rotr (k x : Nat) : Nat := w32 ((x >>> k) ||| (x <<< (32 - k)))

/-- SHA-256 round constants. -/
def shaK : List Nat :=
  [1116352408, 1899447441, 3049323471, 3921009573, 961987163,
   1508970993, 2453635748, 2870763221, 3624381080, 310598401,
   607225278, 1426881987, 1925078388, 2162078206, 2614888103,
   3248222580, 3835390401, 4022224774, 264347078, 604807628,
   770255983, 1249150122, 1555081692, 1996064986, 2554220882,
   2821834349, 2952996808, 3210313671, 3336571891, 3584528711,
   113926993, 338241895, 666307205, 773529912, 1294757372,
   1396182291, 1695183700, 1986661051, 2177026350, 2456956037,
   2730485921, 2820302411, 3259730800, 3345764771, 3516065817,
   3600352804, 4094571909, 275423344, 430227734, 506948616,
   659060556, 883997877, 958139571, 1322822218, 1537002063,
   1747873779, 1955562222, 2024104815, 2227730452, 2361852424,
   2428436474, 2756734187, 3204031479, 3329325298]

/-- SHA-256 initial hash value. -/
def shaH0 : List Nat :=
  [1779033703, 3144134277, 1013904242, 2773480762,
   1359893119, 2600822924, 528734635, 1541459225]

/-- Big-endian 8-byte encoding. -/
def be64 (n : Nat) : List Nat := (List.range 8).map (fun i => (n >>> (8 * (7 - i))) % 256)

/-- SHA-256 padding: append `0x80`, zero bytes, then the 64-bit bit length. -/
def sha256pad (msg : List Nat) : List Nat :=
  let L := msg.length
  msg ++ 128 :: List.replicate ((64 - (L + 9) % 64) % 64) 0 ++ be64 (L * 8)

/-- Split a list into successive 64-element groups. -/
def groupBy64 : List Nat → List (List Nat)
  | [] => []
  | x :: rest => (x :: rest).take 64 :: groupBy64 ((x :: rest).drop 64)
termination_by l => l.length
decreasing_by
  simp only [List.length_drop, List.length_cons]
  omega

/-- Big-endian 32-bit words from 4-byte groups. -/
def bytesToWords : List Nat → List Nat
  | b0 :: b1 :: b2 :: b3 :: rest => (((b0 * 256 + b1) * 256 + b2) * 256 + b3) :: bytesToWords rest
  | _ => []

/-- One message-schedule extension step. -/
def schedStep (ws : List Nat) : List Nat :=
  let n := ws.length
  let s0 := let x := ws.getD (n - 15) 0; (rotr 7 x) ^^^ (rotr 18 x) ^^^ (x >>> 3)
  let s1 := let x := ws.getD (n - 2) 0; (rotr 17 x) ^^^ (rotr 19 x) ^^^ (x >>> 10)
  ws ++ [w32 (ws.getD (n - 16) 0 + s0 + ws.getD (n - 7) 0 + s1)]

/-- Working state of the SHA-256 compression loop. -/
structure ShaState where
  a : Nat
  b : Nat
  c : Nat
  d : Nat
  e : Nat
  f : Nat
  g : Nat
  h : Nat

/-- One round of the SHA-256 compression loop. -/
def shaRound (st : ShaState) (kw : Nat × Nat) : ShaState :=
  let S1 := (rotr 6 st.e) ^^^ (rotr 11 st.e) ^^^ (rotr 25 st.e)
  let ch := (st.e &&& st.f) ^^^ ((4294967295 - st.e) &&& st.g)
  let temp1 := w32 (st.h + S1 + ch + kw.1 + kw.2)
  let S0 := (rotr 2 st.a) ^^^ (rotr 13 st.a) ^^^ (rotr 22 st.a)
  let maj := (st.a &&& st.b) ^^^ (st.a &&& st.c) ^^^ (st.b &&& st.c)
  let temp2 := w32 (S0 + maj)
  { a := w32 (temp1 + temp2), b := st.a, c := st.b, d := st.c,
    e := w32 (st.d + temp1), f := st.e, g := st.f, h := st.g }

/-- Compress one 512-bit block into the running hash. -/
def shaCompress (H : List Nat) (block : List Nat) : List Nat :=
  let ws := schedStep^[48] (bytesToWords block)
  let init : ShaState :=
    { a := H.getD 0 0, b := H.getD 1 0, c := H.getD 2 0, d := H.getD 3 0,
      e := H.getD 4 0, f := H.getD 5 0, g := H.getD 6 0, h := H.getD 7 0 }
  let st := (List.zip shaK ws).foldl shaRound init
  [w32 (H.getD 0 0 + st.a), w32 (H.getD 1 0 + st.b), w32 (H.getD 2 0 + st.c),
   w32 (H.getD 3 0 + st.d), w32 (H.getD 4 0 + st.e), w32 (H.getD 5 0 + st.f),
   w32 (H.getD 6 0 + st.g), w32 (H.getD 7 0 + st.h)]

/-- Lower-case hex digit. -/
def hexDigit (n : Nat) : Char := if n < 10 then Char.ofNat (48 + n) else Char.ofNat (87 + n)

/-- Eight hex digits of a 32-bit word. -/
def word32Hex (n : Nat) : List Char := (List.range 8).map (fun i => hexDigit ((n >>> (4 * (7 - i))) % 16))

/-- `hashlib.sha256(bytes).hexdigest()`. -/
def sha256Hex (msg : List Nat) : String :=
  ⟨(((groupBy64 (sha256pad msg)).foldl shaCompress shaH0).map word32Hex).flatten⟩

/-! ## Cache — model of `app/utils/cache.py` -/

/-- `VoiceConfig` (`app/domain/schemas.py`): per-role voice parameters. -/
structure VoiceConfig where
  name : String
  deriving DecidableEq, Repr

/-- `SpeakerRegistry = Dict[str, VoiceConfig]`, modelled as an association list
in dict insertion order. -/
abbrev SpeakerRegistry : Type := List (String × VoiceConfig)

/-- `_normalize_script`: remove ALL whitespace. -/
def normalize_script (s : List Char) : List Char := deleteWS s

/-- JSON escape of one character as produced by Python `json.dumps` with
`ensure_ascii=False`. -/
def jsonEscapeChar (c : Char) : List Char :=
  if c = '"' then ['\\', '"']
  else if c = '\\' then ['\\', '\\']
  else if c = '\n' then ['\\', 'n']
  else if c = '\t' then ['\\', 't']
  else if c = '\r' then ['\\', 'r']
  else if c = '\x08' then ['\\', 'b']
  else if c = '\x0c' then ['\\', 'f']
  else if c.toNat < 32 then
    '\\' :: 'u' :: (List.range 4).map (fun i => hexDigit ((c.toNat >>> (4 * (3 - i))) % 16))
  else [c]

/-- JSON string literal. -/
def jsonQuote (s : List Char) : List Char :=
  '"' :: (s.map jsonEscapeChar).flatten ++ ['"']

/-- JSON object from ordered key/value string pairs, with Python's default
separators `", "` and `": "`. -/
def jsonObj (kvs : List (List Char × List Char)) : List Char :=
  '{' :: (List.intercalate [',', ' ']
    (kvs.map (fun kv => jsonQuote kv.1 ++ ':' :: ' ' :: kv.2))) ++ ['}']

/-- `_normalize_registry`: project each entry to its voice name, reject empty
names, and sort by role. -/
def normalize_registry (registry : SpeakerRegistry) : Except String (List (String × String)) :=
  let slim : List (String × String) := registry.map (fun rc => (rc.1, rc.2.name))
  if slim.any (fun rv => rv.2 = "") then
    let missing := (slim.filter (fun rv => rv.2 = "")).map (fun rv => rv.1)
    let q : String := ⟨[Char.ofNat 39]⟩
    .error ("registry missing for roles: [" ++
      String.intercalate ", " (missing.map (fun r => q ++ r ++ q)) ++ "]")
  else
    .ok (slim.insertionSort (fun p q => p.1 ≤ q.1))

/-- The serialized triple: `json.dumps(payload, sort_keys=True,
ensure_ascii=False)` where payload has keys `script`, `registry`, `model`
(serialized in sorted key order `model < registry < script`). -/
def cacheBlob (script : List Char) (slim : List (String × String)) (model : List Char) : List Char :=
  jsonObj
    [(['m', 'o', 'd', 'e', 'l'], jsonQuote model),
     (['r', 'e', 'g', 'i', 's', 't', 'r', 'y'],
       jsonObj (slim.map (fun rv => (rv.1.data, jsonQuote rv.2.data)))),
     (['s', 'c', 'r', 'i', 'p', 't'], jsonQuote script)]

/-- `make_cache_key` from `cache.py`. -/
def make_cache_key (script : String) (registry : SpeakerRegistry) (model : String) :
    Except String String := do
  let slim ← normalize_registry registry
  .ok (sha256Hex (utf8Encode (cacheBlob (normalize_script script.data) slim model.data)))

/-! ## Script parser — model of `app/services/process/mastering.py` -/

/-- `ScriptLine` from `mastering.py`. -/
structure ScriptLine where
  role : List Char
  character : Option (List Char)
  text : List Char
  simple_cues : List (List Char)
  control_cues : List (List Char)
  deriving DecidableEq, Repr

/-- `ParsedDoc` from `mastering.py`. -/
structure ParsedDoc where
  styles_raw : List Char
  vocals_raw : List Char
  lines : List ScriptLine
  deriving DecidableEq, Repr

/-- Case-insensitive match of the literal `pat` at the head of `s`; returns the
remainder on success (the `re.IGNORECASE` treatment of an ASCII literal). -/
def startsWithCI : List Char → List Char → Option (List Char)
  | [], s => some s
  | _, [] => none
  | p :: ps, c :: cs => if c.toLower = p.toLower then startsWithCI ps cs else none

/-- Match of a header regex `^\s*HDR\s*$` with `re.IGNORECASE`
(`_STYLE_HDR` / `_VOCAL_HDR` / `_SCRIPT_HDR`). -/
def matchHeaderLine (hdr : List Char) (line : List Char) : Bool :=
  match startsWithCI hdr (line.dropWhile pyIsSpace) with
  | some rest => rest.all pyIsSpace
  | none => false

/-- The three header-index scan results of `_split_sections` (its `for`/`elif`
chain over enumerated lines). -/
def findHeaderIdx : List (List Char) → Nat → Option Nat → Option Nat → Option Nat →
    Option Nat × Option Nat × Option Nat
  | [], _, s, v, c => (s, v, c)
  | ln :: rest, i, s, v, c =>
    if s.isNone && matchHeaderLine "STYLE DESCRIPTION:".data ln then
      findHeaderIdx rest (i + 1) (some i) v c
    else if v.isNone && matchHeaderLine "VOCAL DICTIONARY:".data ln then
      findHeaderIdx rest (i + 1) s (some i) c
    else if c.isNone && matchHeaderLine "SCRIPT:".data ln then
      findHeaderIdx rest (i + 1) s v (some i)
    else
      findHeaderIdx rest (i + 1) s v c

/-- `block(start, end)` inside `_split_sections`: the text strictly between the
header line and `end` (exclusive), joined and stripped. -/
def blockOf (lines : List (List Char)) (start : Nat) (stop : Option Nat) : List Char :=
  let s := start + 1
  let e := stop.getD lines.length
  pyStrip (List.intercalate ['\n'] ((lines.drop s).take (e - s)))

/-- `_split_sections` from `mastering.py`. -/
def split_sections (text : List Char) : Except String (List Char × List Char × List Char) :=
  let lines := pySplitlines text
  let (idx_style, idx_vocal, idx_script) := findHeaderIdx lines 0 none none none
  match idx_script with
  | none => .error "SCRIPT: section is required"
  | some c =>
    let next_after_style := match idx_vocal with
      | some v => min v c
      | none => c
    let next_after_vocal := c
    let style_block := match idx_style with
      | some s => blockOf lines s (some next_after_style)
      | none => []
    let vocal_block := match idx_vocal with
      | some v => blockOf lines v (some next_after_vocal)
      | none => []
    let script_block := blockOf lines c none
    .ok (style_block, vocal_block, script_block)

/-- `_to_nonempty_lines` from `mastering.py`. -/
def to_nonempty_lines (block : List Char) : List (List Char) :=
  (pySplitlines block).filter (fun ln => !(pyStrip ln).isEmpty)

/-- Match of `_ROLE_LINE` against one line, returning the `role`, optional
`char` and `text` captures. -/
def matchRoleLine (line : List Char) : Option (List Char × Option (List Char) × List Char) :=
  match line.dropWhile pyIsSpace with
  | '[' :: r1 =>
    let role := r1.takeWhile (fun c => c ≠ ']')
    if role.isEmpty then none
    else
      match r1.drop role.length with
      | ']' :: r2 =>
        let r3 := r2.dropWhile pyIsSpace
        -- the optional group (?:<(?P<char>[^>]+)>\s*[:\-]?\s*)?
        let withChar : Option (List Char × List Char) :=
          match r3 with
          | '<' :: r4 =>
            let ch := r4.takeWhile (fun c => c ≠ '>')
            if ch.isEmpty then none
            else
              match r4.drop ch.length with
              | '>' :: r5 =>
                let r6 := r5.dropWhile pyIsSpace
                let r7 := match r6 with
                  | ':' :: t => t
                  | '-' :: t => t
                  | _ => r6
                some (ch, r7.dropWhile pyIsSpace)
              | _ => none
          | _ => none
        match withChar with
        | some chrest => some (role, some chrest.1, chrest.2)
        | none => some (role, none, r3)
      | _ => none
  | _ => none

/-- Successive `_PAREN_GROUP.finditer` captures: non-overlapping `\(([^)]*)\)`
groups scanned left to right. -/
def parenGroupsGo : Option (List Char) → List Char → List (List Char)
  | none, [] => []
  | none, c :: rest => if c = '(' then parenGroupsGo (some []) rest else parenGroupsGo none rest
  | some _, [] => []
  | some buf, c :: rest =>
    if c = ')' then buf.reverse :: parenGroupsGo none rest
    else parenGroupsGo (some (c :: buf)) rest

/-- Successive `_PAREN_GROUP.finditer` captures: non-overlapping `\(([^)]*)\)`
groups scanned left to right (a `(` with no later `)` matches nothing). -/
def parenGroups (s : List Char) : List (List Char) := parenGroupsGo none s

/-- Replace every `\([^)]*\)` match by `repl` (the `re.sub` used by
`_PAREN_STRIP` in `mastering.py` and `_PAREN` in `aligner.py`). -/
def subParenGroupsGo (repl : List Char) : Option (List Char) → List Char → List Char
  | none, [] => []
  | none, c :: rest =>
    if c = '(' then subParenGroupsGo repl (some []) rest
    else c :: subParenGroupsGo repl none rest
  | some buf, [] => '(' :: buf.reverse
  | some buf, c :: rest =>
    if c = ')' then repl ++ subParenGroupsGo repl none rest
    else subParenGroupsGo repl (some (c :: buf)) rest

/-- Replace every `\([^)]*\)` match by `repl` (the `re.sub` used by
`_PAREN_STRIP` in `mastering.py` and `_PAREN` in `aligner.py`); a `(` with no
later `)` matches nothing and is kept verbatim. -/
def subParenGroups (repl : List Char) (s : List Char) : List Char :=
  subParenGroupsGo repl none s

/-- ASCII `[A-Z0-9_]` class membership. -/
def isControlChar (c : Char) : Bool :=
  ('A' ≤ c && c ≤ 'Z') || ('0' ≤ c && c ≤ '9') || c = '_'

/-- `re.fullmatch(r"[A-Z0-9_]+", inner)` as a Boolean test. -/
def isControlCue (s : List Char) : Bool := !s.isEmpty && s.all isControlChar

/-- `_classify_cues` from `mastering.py`. -/
def classify_cues (utter : List Char) : List (List Char) × List (List Char) :=
  let inners := ((parenGroups utter).map pyStrip).filter (fun g => !g.isEmpty)
  (inners.filter (fun g => !isControlCue g), inners.filter isControlCue)

/-- `parse_text` from `mastering.py` (the `ValueError` becomes `.error`). -/
def parse_text (text : List Char) : Except String ParsedDoc := do
  let (style_block, vocal_block, script_block) ← split_sections text
  let lines := (to_nonempty_lines script_block).filterMap (fun raw =>
    match matchRoleLine raw with
    | none => none
    | some (role, char, txt) =>
      let role := pyStrip role
      let char := match char with
        | some ch => if (pyStrip ch).isEmpty then none else some (pyStrip ch)
        | none => none
      let utter := pyStrip txt
      let (simple, control) := classify_cues utter
      some { role := role, character := char, text := utter,
             simple_cues := simple, control_cues := control })
  .ok { styles_raw := style_block, vocals_raw := vocal_block, lines := lines }

/-- `build_ui_script` from `mastering.py`. -/
def build_ui_script (doc : ParsedDoc) : List Char :=
  pyStrip (List.intercalate ['\n']
    ((doc.lines.filter (fun line => !(pyStrip line.text).isEmpty)).map (fun line =>
      let display_name := line.character.getD line.role
      '<' :: display_name ++ '>' :: ' ' :: pyStrip line.text)))

/-- `re.sub` of `_ROLE_TAG` (`^\s*\[[^\]]+\]\s*`, anchored so at most one
replacement) on one line. -/
def stripRoleTag (s : List Char) : List Char :=
  match s.dropWhile pyIsSpace with
  | '[' :: r1 =>
    let role := r1.takeWhile (fun c => c ≠ ']')
    if role.isEmpty then s
    else
      match r1.drop role.length with
      | ']' :: r2 => r2.dropWhile pyIsSpace
      | _ => s
  | _ => s

/-- `re.sub` of `_CHAR_TAG` (`^\s*<[^>]+>\s*[:\-]?\s*`) on one line. -/
def stripCharTag (s : List Char) : List Char :=
  match s.dropWhile pyIsSpace with
  | '<' :: r1 =>
    let ch := r1.takeWhile (fun c => c ≠ '>')
    if ch.isEmpty then s
    else
      match r1.drop ch.length with
      | '>' :: r2 =>
        let r3 := r2.dropWhile pyIsSpace
        let r4 := match r3 with
          | ':' :: t => t
          | '-' :: t => t
          | _ => r3
        r4.dropWhile pyIsSpace
      | _ => s
  | _ => s

/-- `build_alignment_text_from_ui` from `mastering.py`. -/
def build_alignment_text_from_ui (ui_script : List Char) : List Char :=
  pyStrip (List.intercalate ['\n']
    (((pySplitlines ui_script).map (fun raw =>
        pyStrip (collapseWS (subParenGroups [] (stripCharTag (stripRoleTag raw)))))).filter
      (fun txt => !txt.isEmpty)))

/-! ## Alignment engine — model of `app/services/align/aligner.py`

Times are modelled as exact rationals; the external transcriber
(`faster_whisper`) is an input, and the `difflib.SequenceMatcher` opcode list
is an input constrained by `validOps` (exactly the shape difflib guarantees:
a contiguous cover of both token ranges). -/

/-- The `eps = 1e-3` of `_fix_monotonic` / `_fix_ref_monotonic`. -/
def alignEps : ℚ := 1 / 1000

/-- Python `[\w']` membership (ASCII fragment of `\w` plus the apostrophe),
the complement of the `_PUNCT` class. -/
def isWordChar (c : Char) : Bool := c.isAlphanum || c = '_' || c = Char.ofNat 39

/-- The smart-punctuation replacements plus `.lower()` used by the aligner's
normalizers. -/
def normSmartLower (s : List Char) : List Char :=
  (s.map (fun c =>
    if c = '…' then ['.', '.', '.']
    else if c = '’' || c = '‘' then [Char.ofNat 39]
    else [c.toLower])).flatten

/-- `_normalize_and_tokenize` from `aligner.py`. -/
def normalize_and_tokenize (text : List Char) : List (List Char) :=
  let text := subParenGroups [' '] text
  let text := normSmartLower text
  let text := pyStrip (collapseWS text)
  let toks_raw := (text.splitOn ' ').filter (fun t => !t.isEmpty)
  (toks_raw.map (fun t =>
    let cleaned := pyStrip (collapseRuns (fun c => !isWordChar c) t)
    ((cleaned.splitOn ' ').filter (fun x => !x.isEmpty)))).flatten

/-- `_normalize_word` from `aligner.py`. -/
def normalize_word (w : List Char) : List Char :=
  (normSmartLower (pyStrip w)).filter isWordChar

/-- `ASRWord` from `aligner.py` (`end` is a Lean keyword; the field is named
`stop`). -/
structure ASRWord where
  word_norm : List Char
  start : ℚ
  stop : ℚ
  deriving DecidableEq, Repr

/-- `RefWordTimed` from `aligner.py` (`end` renamed `stop`). -/
structure RefWordTimed where
  text : List Char
  start : ℚ
  stop : ℚ
  deriving DecidableEq, Repr

/-- One entry of the `words` list returned by `align_audio`
(`WordTiming` in `app/domain/schemas.py`). -/
structure WordTiming where
  w : List Char
  s : ℚ
  e : ℚ
  idx : Nat
  deriving DecidableEq, Repr

/-- Loop body of `_fix_monotonic`, threading `last`. -/
def fix_monotonic_go (last : ℚ) : List ASRWord → List ASRWord
  | [] => []
  | w :: ws =>
    let s := if w.start < last - alignEps then last else w.start
    let e := if w.stop < s + alignEps then s + alignEps else w.stop
    ⟨w.word_norm, s, e⟩ :: fix_monotonic_go e ws

/-- `_fix_monotonic` from `aligner.py` (in-place mutation modelled as a new
list). -/
def fix_monotonic (ws : List ASRWord) : List ASRWord := fix_monotonic_go 0 ws

/-- Loop body of `_fix_ref_monotonic`, threading `last`. -/
def fix_ref_monotonic_go (last : ℚ) : List RefWordTimed → List RefWordTimed
  | [] => []
  | r :: rs =>
    let s := if r.start < last - alignEps then last else r.start
    let e := if r.stop < s + alignEps then s + alignEps else r.stop
    ⟨r.text, s, e⟩ :: fix_ref_monotonic_go e rs

/-- `_fix_ref_monotonic` from `aligner.py`. -/
def fix_ref_monotonic (rs : List RefWordTimed) : List RefWordTimed := fix_ref_monotonic_go 0 rs

/-- `asr_window` from `_assign_timings`. -/
def asr_window (asr : List ASRWord) (i1 i2 : Nat) : ℚ × ℚ :=
  let N := asr.length
  if i1 < i2 then
    ((asr.getD i1 ⟨[], 0, 0⟩).start, (asr.getD (i2 - 1) ⟨[], 0, 0⟩).stop)
  else
    let left : Option ℚ := if 1 ≤ i1 then some (asr.getD (i1 - 1) ⟨[], 0, 0⟩).stop else none
    let right : Option ℚ := if i1 < N then some (asr.getD i1 ⟨[], 0, 0⟩).start else none
    match left, right with
    | some l, some r => if l < r then (l, r) else (l, l + 1 / 50)
    | some l, none => (l, l + 1 / 50)
    | none, some r => (max 0 (r - 1 / 50), r)
    | none, none => (0, 1 / 50)

/-- The `span <= 0` fallback of `assign_linear`: fixed `0.01` slices from
`t0`. -/
def tiny_spans (t0 : ℚ) : List (List Char) → List RefWordTimed
  | [] => []
  | t :: ts => ⟨t, t0, t0 + 1 / 100⟩ :: tiny_spans (t0 + 1 / 100) ts

/-- The stepping loop of `assign_linear` (`cur` advances by `step`; the last
entry ends at `t1`; every end is floored to `start + 1e-3`). -/
def assign_linear_go (step t1 : ℚ) : List (List Char) → ℚ → List RefWordTimed
  | [], _ => []
  | [t], cur => [⟨t, cur, max t1 (cur + 1 / 1000)⟩]
  | t :: t2 :: ts, cur =>
    ⟨t, cur, max (cur + step) (cur + 1 / 1000)⟩ :: assign_linear_go step t1 (t2 :: ts) (cur + step)

/-- `assign_linear` from `_assign_timings`, producing the entries for the
reference tokens `texts` of one run. -/
def assign_linear (texts : List (List Char)) (t0 t1 : ℚ) : List RefWordTimed :=
  let count : ℚ := max 1 (texts.length : ℚ)
  let span : ℚ := max 0 (t1 - t0)
  if span ≤ 0 then tiny_spans t0 texts
  else assign_linear_go (span / count) t1 texts t0

/-- The `equal` branch of `_assign_timings`: reference token `j` copies ASR
word `k = i1 + (j - j1)` verbatim, with the tiny-span fallback when the ASR
words run out (`prev` is the previously generated end, `none` on the run's
first token). -/
def equal_run_go (asr : List ASRWord) (N : Nat) : Nat → Option ℚ → List (List Char) →
    List RefWordTimed
  | _, _, [] => []
  | k, prev, t :: ts =>
    if k < N then
      let w := asr.getD k ⟨[], 0, 0⟩
      ⟨t, w.start, w.stop⟩ :: equal_run_go asr N (k + 1) (some w.stop) ts
    else
      let last := match prev with
        | some e => e
        | none => if 0 < N then ((asr.getLast?.map (fun w => w.stop)).getD 0) else 0
      ⟨t, last, last + 1 / 100⟩ :: equal_run_go asr N (k + 1) (some (last + 1 / 100)) ts

/-- The opcode tags of `difflib.SequenceMatcher.get_opcodes`. -/
inductive OpTag where
  | equal
  | replace
  | insert
  | delete
  deriving DecidableEq, Repr

/-- One opcode `(tag, i1, i2, j1, j2)`: hypothesis tokens `[i1, i2)` against
reference tokens `[j1, j2)`. -/
structure Op where
  tag : OpTag
  i1 : Nat
  i2 : Nat
  j1 : Nat
  j2 : Nat
  deriving DecidableEq, Repr

/-- Shape guarantee of `difflib.SequenceMatcher.get_opcodes` over sequences of
lengths `Nh` (hypothesis) and `Nr` (reference): opcodes tile both index ranges
contiguously from `(i, j)` up to `(Nh, Nr)`, with the per-tag emptiness
constraints difflib documents. -/
def validOpsFrom (Nh Nr : Nat) : Nat → Nat → List Op → Bool
  | i, j, [] => decide (i = Nh) && decide (j = Nr)
  | i, j, op :: rest =>
    decide (op.i1 = i) && decide (op.j1 = j) &&
    decide (op.i2 ≤ Nh) && decide (op.j2 ≤ Nr) &&
    (match op.tag with
     | .equal => decide (op.i1 < op.i2) && decide (op.i2 - op.i1 = op.j2 - op.j1)
     | .replace => decide (op.i1 < op.i2) && decide (op.j1 < op.j2)
     | .insert => decide (op.i1 = op.i2) && decide (op.j1 < op.j2)
     | .delete => decide (op.i1 < op.i2) && decide (op.j1 = op.j2)) &&
    validOpsFrom Nh Nr op.i2 op.j2 rest

/-- A valid opcode decomposition of the full ranges. -/
def validOps (Nh Nr : Nat) (ops : List Op) : Bool := validOpsFrom Nh Nr 0 0 ops

/-- The entries `_assign_timings` writes for one opcode (the slice
`out[j1:j2]` of the result array). -/
def opSegment (ref_tokens : List (List Char)) (asr : List ASRWord) (op : Op) :
    List RefWordTimed :=
  let texts := (ref_tokens.drop op.j1).take (op.j2 - op.j1)
  match op.tag with
  | .equal => equal_run_go asr asr.length op.i1 none texts
  | .replace =>
    let w := asr_window asr op.i1 op.i2
    assign_linear texts w.1 w.2
  | .insert =>
    let w := asr_window asr op.i1 op.i2
    assign_linear texts w.1 w.2
  | .delete => []

/-- `_assign_timings` from `aligner.py`. For a `validOps` decomposition the
opcode index ranges `[j1, j2)` tile `[0, len ref_tokens)` in order, so the
written array equals the concatenation of the per-opcode segments; the final
`_fix_ref_monotonic` pass is applied to it. -/
def assign_timings (ref_tokens : List (List Char)) (asr : List ASRWord) (ops : List Op) :
    List RefWordTimed :=
  fix_ref_monotonic ((ops.map (opSegment ref_tokens asr)).flatten)

/-- Python `enumerate` over the timed reference words, producing the final
`{"w", "s", "e", "idx"}` entries of `align_audio`. -/
def attach_idx (i : Nat) : List RefWordTimed → List WordTiming
  | [] => []
  | r :: rs => ⟨r.text, r.start, r.stop, i⟩ :: attach_idx (i + 1) rs

/-- The zero-ASR fallback of `align_audio`: tiny fixed-width spans `0.01`
apart, in index order. -/
def fallback_spans (i : Nat) (t : ℚ) : List (List Char) → List WordTiming
  | [] => []
  | tok :: toks => ⟨tok, t, t + 1 / 100, i⟩ :: fallback_spans (i + 1) (t + 1 / 100) toks

/-- `align_audio` from `aligner.py`, after the external transcription:
`asr_raw` is the transcriber's word stream (already `_normalize_word`-filtered
as in `_transcribe_words`), and `ops` the SequenceMatcher opcodes over
`(hyp_tokens, ref_tokens)`. -/
def align_core (script : List Char) (asr_raw : List ASRWord) (ops : List Op) :
    List WordTiming :=
  let ref_tokens := normalize_and_tokenize script
  if ref_tokens.isEmpty then []
  else
    let asr_words := fix_monotonic asr_raw
    if asr_words.isEmpty then fallback_spans 0 0 ref_tokens
    else attach_idx 0 (assign_timings ref_tokens asr_words ops)

/-! ## Chunked synthesis merge — model of `app/services/synth/chunking.py`

A parsed WAV container is modelled by its `wave`-module parameters and raw
frame bytes; the deterministic `wave` serialization makes equality of these
records the model of byte-identical files. -/

/-- A WAV payload as read/written through the `wave` module. -/
structure Wav where
  nchannels : Nat
  sampwidth : Nat
  framerate : Nat
  frames : List Nat
  deriving DecidableEq, Repr

/-- `_read_wav_params`. -/
def read_wav_params (w : Wav) : Nat × Nat × Nat := (w.nchannels, w.sampwidth, w.framerate)

/-- The chunk loop of `_concat_wavs`: validate each chunk's parameters against
the first chunk's, write its frames, and write the silence after every chunk
but the last; the `ValueError` becomes `.error`. -/
def concat_frames_go (ch sw fr : Nat) (silence : List Nat) : List Wav → Except String (List Nat)
  | [] => .ok []
  | [w] =>
    if read_wav_params w = (ch, sw, fr) then .ok w.frames
    else .error "Inconsistent WAV formats across chunks"
  | w :: w2 :: rest =>
    if read_wav_params w = (ch, sw, fr) then
      match concat_frames_go ch sw fr silence (w2 :: rest) with
      | .ok tail => .ok (w.frames ++ silence ++ tail)
      | .error e => .error e
    else .error "Inconsistent WAV formats across chunks"

/-- `_concat_wavs` from `chunking.py` (`.ok none` models the `b""` returned
for an empty list). -/
def concat_wavs (silence_ms : Nat) (wavs : List Wav) : Except String (Option Wav) :=
  match wavs with
  | [] => .ok none
  | w0 :: _ =>
    let ch := w0.nchannels
    let sw := w0.sampwidth
    let fr := w0.framerate
    let silence_frames := fr * silence_ms / 1000
    let silence_bytes := List.replicate (sw * ch * silence_frames) 0
    match concat_frames_go ch sw fr silence_bytes wavs with
    | .ok data => .ok (some ⟨ch, sw, fr, data⟩)
    | .error e => .error e

/-- `ChunkResult` from `chunking.py`. -/
structure ChunkResult where
  index : Nat
  wav_bytes : Wav
  deriving DecidableEq, Repr

/-- `results.sort(key=lambda r: r.index)` from `synthesize_chunked`. -/
def sortResults (rs : List ChunkResult) : List ChunkResult :=
  rs.insertionSort (fun a b => a.index ≤ b.index)

/-- The merge step of `synthesize_chunked` (steps after all chunk tasks have
completed): sort the collected results by original chunk index and
concatenate. -/
def merge_results (silence_ms : Nat) (rs : List ChunkResult) : Except String (Option Wav) :=
  concat_wavs silence_ms ((sortResults rs).map (fun r => r.wav_bytes))

instance : IsTotal ChunkResult (fun a b => a.index ≤ b.index) :=
  ⟨fun a b => Nat.le_total a.index b.index⟩

instance : IsTrans ChunkResult (fun a b => a.index ≤ b.index) :=
  ⟨fun _ _ _ hab hbc => Nat.le_trans hab hbc⟩

instance : IsTotal (String × String) (fun p q => p.1 ≤ q.1) :=
  ⟨fun a b => le_total a.1 b.1⟩

instance : IsTrans (String × String) (fun p q => p.1 ≤ q.1) :=
  ⟨fun _ _ _ hab hbc => le_trans hab hbc⟩

/-! ## Job orchestrator — model of `app/services/jobs/manager.py`

The filesystem is abstracted into values: the persisted `status.json` is a
`Status` record, `request.json` an `Option JobCreate`, and the external
collaborators (voice-registry YAML, cache index file, other jobs' directories,
the synthesizer and the transcriber) are inputs in `RunEnv`. The modelled
configuration has `de_dialect = False` (its default), so `apply_de_dialect`
is not invoked; both synthesis branches (`do_chunk` true/false) are external
synthesizer invocations whose outcome is `RunEnv.synthRes`. Plain file writes
(artifact link/copy, manifest, timings) are assumed to succeed. -/

/-- The persisted `status.json` of one job. -/
structure Status where
  id : String
  state : JobState
  error : Option String
  createdAt : ℚ
  updatedAt : ℚ
  deriving DecidableEq, Repr

/-- Python truthiness of the `error: Optional[str]` argument (`if error:`). -/
def optTruthy : Option String → Bool
  | none => false
  | some s => !(s = "")

/-- `JobManager._transition`: returns the persisted status record after the
call together with the call's outcome (`.error` models the raised
`RuntimeError`). Requires the status record to exist (it does for every
created job). -/
def transition (st : Status) (dst : JobState) (error : Option String) (now : ℚ) :
    Status × Except String Unit :=
  let src := st.state
  if can_transition src dst then
    ({ st with
        state := dst,
        error := if optTruthy error then error else st.error,
        updatedAt := now }, .ok ())
  else
    -- Still update error + updatedAt, but keep remaining state
    if optTruthy error then
      ({ st with error := error, updatedAt := now },
       .error ("Invalid state transition: " ++ src.value ++ " -> " ++ dst.value))
    else
      (st, .error ("Invalid state transition: " ++ src.value ++ " -> " ++ dst.value))

/-- `JobCreate` from `app/domain/schemas.py`. -/
structure JobCreate where
  script : String
  roles : List String
  deriving DecidableEq, Repr

/-- `JobManager.create_job`: returns the persisted `request.json` content
(written only when DEBUG logging is enabled) and the initial `status.json`. -/
def create_job (debugLogging : Bool) (body : JobCreate) (now : ℚ) (job_id : String) :
    Option JobCreate × Status :=
  ((if debugLogging then some body else none),
   { id := job_id, state := .PENDING, error := none, createdAt := now, updatedAt := now })

/-- The fields of `ManagerConfig` the modelled control flow reads. -/
structure ManagerConfig where
  do_chunk : Bool
  tts_model : String
  deriving Repr

/-- External state and collaborator outcomes for one `run_job` invocation. -/
structure RunEnv where
  requestFile : Option JobCreate
  registryRes : Except String SpeakerRegistry
  instructions : Option String
  cacheLookup : String → Option String
  originState : String → Option Status
  originAudioExists : String → Bool
  originTimingsExists : String → Bool
  synthRes : Except String Unit
  alignRes : Except String (List WordTiming)

/-- Observable events of one `run_job` execution, in order. -/
inductive Event where
  | transitioned (dst : JobState)
  | synthesized
  | aligned
  | cacheRecorded
  deriving DecidableEq, Repr

/-- `JobManager._is_ready_job` on the origin job's persisted status. -/
def is_ready_job (st : Option Status) : Bool :=
  match st with
  | some s => s.state = JobState.READY
  | none => false

/-- `prepend_tts_instructions` from `app/utils/instructions.py`
(`load_tts_instructions()` is external settings/file state). -/
def prepend_tts_instructions (instr : Option String) (script : String) : String :=
  match instr with
  | some i => if i = "" then script else i ++ "\n" ++ script
  | none => script

/-- `str(KeyError("script"))`, the message of the failure `run_job` hits when
`request.json` was never written (`{}["script"]`). -/
def keyErrorScript : String := ⟨[Char.ofNat 39, 's', 'c', 'r', 'i', 'p', 't', Char.ofNat 39]⟩

/-- The cache-miss tail of `run_job` (synthesis, alignment, manifest, READY,
cache record), returning the status, the event suffix and the outcome. -/
def runMiss (env : RunEnv) (st1 : Status) (now : ℚ) :
    Status × List Event × Except String Unit :=
  match env.synthRes with
  | .error e => (st1, [], .error e)
  | .ok _ =>
    match transition st1 .ALIGNING none now with
    | (st2, .error e) => (st2, [.synthesized], .error e)
    | (st2, .ok _) =>
      match env.alignRes with
      | .error e => (st2, [.synthesized, .transitioned .ALIGNING], .error e)
      | .ok _ =>
        match transition st2 .READY none now with
        | (st3, .error e) =>
          (st3, [.synthesized, .transitioned .ALIGNING, .aligned], .error e)
        | (st3, .ok _) =>
          (st3, [.synthesized, .transitioned .ALIGNING, .aligned,
                 .transitioned .READY, .cacheRecorded], .ok ())

/-- The `try` body of `JobManager.run_job`. -/
def runBody (cfg : ManagerConfig) (env : RunEnv) (st0 : Status) (now : ℚ) :
    Status × List Event × Except String Unit :=
  match transition st0 .SYNTHESIZING none now with
  | (st1, .error e) => (st1, [], .error e)
  | (st1, .ok _) =>
    let tagged := fun (r : Status × List Event × Except String Unit) =>
      (r.1, Event.transitioned .SYNTHESIZING :: r.2.1, r.2.2)
    tagged <|
    match env.requestFile with
    | none => (st1, [], .error keyErrorScript)
    | some body =>
      match env.registryRes with
      | .error e => (st1, [], .error e)
      | .ok registry =>
        match parse_text body.script.data with
        | .error e => (st1, [], .error e)
        | .ok doc =>
          let ui_script := build_ui_script doc
          let alignment_script := build_alignment_text_from_ui ui_script
          let _effective_script := prepend_tts_instructions env.instructions body.script
          match make_cache_key ⟨alignment_script⟩ registry cfg.tts_model with
          | .error e => (st1, [], .error e)
          | .ok cache_key =>
            match env.cacheLookup cache_key with
            | some origin_job =>
              if is_ready_job (env.originState origin_job) then
                if !env.originAudioExists origin_job || !env.originTimingsExists origin_job then
                  (st1, [], .error ("Cache inconsistency: READY job " ++ origin_job ++
                    " missing artifacts"))
                else
                  match transition st1 .ALIGNING none now with
                  | (st2, .error e) => (st2, [], .error e)
                  | (st2, .ok _) =>
                    match transition st2 .READY none now with
                    | (st3, .error e) => (st3, [.transitioned .ALIGNING], .error e)
                    | (st3, .ok _) =>
                      (st3, [.transitioned .ALIGNING, .transitioned .READY], .ok ())
              else runMiss env st1 now
            | none => runMiss env st1 now

/-- `JobManager.run_job`: the `try` body with its `except` handler (any error
becomes a FAILED transition carrying the error's message). -/
def run_job (cfg : ManagerConfig) (env : RunEnv) (st0 : Status) (now : ℚ) :
    Status × List Event :=
  match runBody cfg env st0 now with
  | (st, evs, .ok _) => (st, evs)
  | (st, evs, .error e) =>
    match transition st .FAILED (some e) now with
    | (st2, .ok _) => (st2, evs ++ [.transitioned .FAILED])
    | (st2, .error _) => (st2, evs)

/-- Worker for `recordedOnlyAfterReady`: `seen` is whether a successful READY
transition has occurred so far. -/
def recordedOnlyAfterReadyGo (seen : Bool) : List Event → Bool
  | [] => true
  | .transitioned .READY :: rest => recordedOnlyAfterReadyGo true rest
  | .cacheRecorded :: rest => seen && recordedOnlyAfterReadyGo seen rest
  | _ :: rest => recordedOnlyAfterReadyGo seen rest

/-- Every cache-record event in the trace is preceded by a successful
transition to READY. -/
def recordedOnlyAfterReady (evs : List Event) : Bool := recordedOnlyAfterReadyGo false evs

/-! ## Concrete instances used by the claim theorems and witnesses -/

/-- The worked example script of the spec (§8). -/
def exScript : String := "SCRIPT:\n[narrator] Hello there.\n[narrator] (smiles) Goodbye."

/-- A minimal configuration. -/
def cfgA : ManagerConfig := { do_chunk := false, tts_model := "m" }

/-- A minimal well-formed request body. -/
def bodyA : JobCreate := { script := "SCRIPT:\n[narrator] Hi.", roles := ["narrator"] }

/-- An environment in which every external collaborator succeeds and the cache
misses. -/
def envA : RunEnv := {
  requestFile := some bodyA,
  registryRes := .ok [("narrator", { name := "Kore" })],
  instructions := none,
  cacheLookup := fun _ => none,
  originState := fun _ => none,
  originAudioExists := fun _ => false,
  originTimingsExists := fun _ => false,
  synthRes := .ok (),
  alignRes := .ok [] }

/-- The initial status of a job created (without debug logging) at time 0. -/
def stA : Status := (create_job false bodyA 0 "job1").2

/-- A persisted status in the terminal READY state, last updated at time 5. -/
def stREADY : Status := { id := "job2", state := .READY, error := none, createdAt := 0, updatedAt := 5 }

/-- ASR words whose second start lies `1/2000` before the first end — within
the `eps` tolerance of `_fix_monotonic`, hence preserved. -/
def asrC2 : List ASRWord := [⟨['a'], 0, 1⟩, ⟨['b'], 1999 / 2000, 3 / 2⟩]

/-- The `difflib` opcodes for identical two-token sequences. -/
def opsC2 : List Op := [⟨.equal, 0, 2, 0, 2⟩]

/-- A one-word ASR stream for the C2 witness. -/
def asrW : List ASRWord := [⟨['a'], 0, 1⟩]

/-- Opcodes matching the first reference token and inserting the second. -/
def opsW : List Op := [⟨.equal, 0, 1, 0, 1⟩, ⟨.insert, 1, 1, 1, 2⟩]

/-- An environment whose cache index maps every key to origin job `origin1`,
recorded READY on disk but with both artifacts missing. -/
def envHit : RunEnv := { envA with
  cacheLookup := fun _ => some "origin1",
  originState := fun _ =>
    some { id := "origin1", state := .READY, error := none, createdAt := 0, updatedAt := 0 } }

/-- A two-entry registry for the C6 witness. -/
def regW : SpeakerRegistry := [("bob", { name := "Puck" }), ("alice", { name := "Kore" })]

/-- Two chunk results with distinct indices for the C8 witness. -/
def chunksW : List ChunkResult :=
  [⟨0, ⟨1, 2, 24000, [10, 11]⟩⟩, ⟨1, ⟨1, 2, 24000, [20, 21]⟩⟩]

/-! ## Helper lemmas -/

/-- A successful `_transition` run has taken the validated branch: the stored
state becomes `dst` and `updatedAt` is refreshed. -/
theorem transition_ok_state {st : Status} {dst : JobState} {err : Option String} {now : ℚ}
    {st' : Status} {u : Unit} (h : transition st dst err now = (st', .ok u)) :
    st'.state = dst ∧ st'.updatedAt = now ∧ can_transition st.state dst = true := by
  unfold transition at h
  by_cases hc : can_transition st.state dst = true
  · simp only [hc, if_true] at h
    injection h with h1 h2
    refine ⟨?_, ?_, hc⟩ <;> rw [← h1]
  · by_cases hot : optTruthy err = true <;> simp [hc, hot, Prod.ext_iff] at h

/-- A failed `_transition` run has taken the rejection branch: the stored state
is unchanged and the source state did not validate. -/
theorem transition_error_state {st : Status} {dst : JobState} {err : Option String} {now : ℚ}
    {st' : Status} {e : String} (h : transition st dst err now = (st', .error e)) :
    st'.state = st.state ∧ can_transition st.state dst = false := by
  unfold transition at h
  by_cases hc : can_transition st.state dst = true
  · simp [hc, Prod.ext_iff] at h
  · refine ⟨?_, by simp [hc]⟩
    by_cases hot : optTruthy err = true
    · simp only [hc, hot, if_true, if_false, Bool.false_eq_true] at h
      injection h with h1 h2
      rw [← h1]
    · simp only [hc, hot, if_false, Bool.false_eq_true] at h
      injection h with h1 h2
      rw [← h1]

/-- `intercalate` over at least two chunks peels off the first chunk and one
separator. -/
theorem intercalate_cons_cons {α : Type} (sep a b : List α) (t : List (List α)) :
    List.intercalate sep (a :: b :: t) = a ++ sep ++ List.intercalate sep (b :: t) := by
  simp [List.intercalate, List.intersperse]

/-- The `_concat_wavs` chunk loop validates every chunk against the first
chunk's parameters and otherwise interleaves the silence between consecutive
chunks' frames. -/
theorem concat_frames_go_spec (ch sw fr : Nat) (silence : List Nat) :
    ∀ (w : Wav) (rest : List Wav),
    concat_frames_go ch sw fr silence (w :: rest) =
      if (w :: rest).all (fun x => decide (read_wav_params x = (ch, sw, fr))) then
        .ok (List.intercalate silence ((w :: rest).map (fun x => x.frames)))
      else .error "Inconsistent WAV formats across chunks" := by
  intro w rest
  induction rest generalizing w with
  | nil =>
    by_cases h : read_wav_params w = (ch, sw, fr) <;>
      simp [concat_frames_go, h, List.intercalate, List.intersperse]
  | cons w2 t ih =>
    by_cases h1 : read_wav_params w = (ch, sw, fr)
    · by_cases h2 : (w2 :: t).all (fun x => decide (read_wav_params x = (ch, sw, fr))) = true
      · simp only [concat_frames_go, h1, if_true, ih w2, h2, List.all_cons, decide_eq_true_eq,
          List.map_cons, Bool.and_self]
        rw [intercalate_cons_cons]
        simp [h1, h2]
      · simp only [concat_frames_go, h1, if_true, ih w2, h2]
        simp [h1, h2]
    · simp [concat_frames_go, h1]

/-! ## Claim theorems -/

/-- C1: the spec claims a no-external-failure run walks
PENDING→SYNTHESIZING→ALIGNING→READY with every step accepted by
`can_transition`. The code rejects the direct SYNTHESIZING→ALIGNING step
(`_ALLOWED` only permits SYNTHESIZING→MASTERING), so even a run in which every
external collaborator succeeds ends FAILED with an invalid-transition error
instead of READY. -/
theorem C1_successful_run_walk : can_transition .SYNTHESIZING .ALIGNING = false ∧
    run_job cfgA envA stA 1 =
      ({ id := "job1", state := .FAILED,
         error := some "Invalid state transition: SYNTHESIZING -> ALIGNING",
         createdAt := 0, updatedAt := 1 },
       [.transitioned .SYNTHESIZING, .synthesized, .transitioned .FAILED]) := by
  exact ⟨rfl, rfl⟩

/-- C3 (counterexample): an invalid READY→SYNTHESIZING attempt with no error
message writes nothing at all — the returned persisted record still has
`updatedAt = 5`, not the current time 7 — contradicting the claim that
`updatedAt` is refreshed even without an error message. -/
theorem C3_counterexample :
    transition stREADY .SYNTHESIZING none 7 =
      (stREADY, .error "Invalid state transition: READY -> SYNTHESIZING") ∧
    stREADY.updatedAt = 5 := by
  exact ⟨rfl, rfl⟩

/-- C3 (amended): on a rejected transition the stored state is unchanged and
the caller receives the invalid-transition failure; the attempted error
message and the `updatedAt` refresh are persisted only when a (non-empty)
error message is supplied — with no message the record is not rewritten at
all. -/
theorem C3_invalid_transition (st : Status) (dst : JobState) (err : Option String) (now : ℚ)
    (h : can_transition st.state dst = false) :
    (transition st dst err now).1.state = st.state ∧
    (transition st dst err now).2 =
      .error ("Invalid state transition: " ++ st.state.value ++ " -> " ++ dst.value) ∧
    (optTruthy err = true →
      (transition st dst err now).1.error = err ∧ (transition st dst err now).1.updatedAt = now) ∧
    (optTruthy err = false → (transition st dst err now).1 = st) := by
  unfold transition
  simp only [h, Bool.false_eq_true, if_false]
  cases hot : optTruthy err with
  | true => simp [hot]
  | false => simp [hot]

/-- C3 (witness): the amended behaviour at the concrete READY→SYNTHESIZING
attempts, with and without an error message. -/
theorem C3_witness :
    can_transition stREADY.state .SYNTHESIZING = false ∧
    ((transition stREADY .SYNTHESIZING (some "boom") 7).1.error = some "boom" ∧
      (transition stREADY .SYNTHESIZING (some "boom") 7).1.updatedAt = 7) ∧
    (transition stREADY .SYNTHESIZING none 7).1 = stREADY := by
  refine ⟨by decide, ?_, ?_⟩
  · exact ((C3_invalid_transition stREADY .SYNTHESIZING (some "boom") 7 (by decide)).2.2.1
      (by decide))
  · exact ((C3_invalid_transition stREADY .SYNTHESIZING none 7 (by decide)).2.2.2 (by decide))

/-- C7 (counterexample): the derived alignment view of the example script is
not the lower-cased `"hello there.\ngoodbye."` the claim states — the
alignment view preserves case (lower-casing happens later, inside the
aligner's tokenizer). -/
theorem C7_counterexample :
    Except.map (fun doc => build_alignment_text_from_ui (build_ui_script doc))
      (parse_text exScript.data) ≠ .ok "hello there.\ngoodbye.".data := by
  decide

/-- C7 (amended): the example script parses to exactly two script lines, the
derived alignment view equals `"Hello there.\nGoodbye."` (case preserved), and
tokenizing that view yields exactly the reference tokens
`hello, there, goodbye` in order. -/
theorem C7_example :
    (Except.map (fun doc => (doc.lines.length, build_alignment_text_from_ui (build_ui_script doc)))
      (parse_text exScript.data)) = .ok (2, "Hello there.\nGoodbye.".data) ∧
    normalize_and_tokenize "Hello there.\nGoodbye.".data =
      ["hello".data, "there".data, "goodbye".data] := by
  exact ⟨by decide, by decide⟩

/-- C10: a job created without DEBUG logging has no persisted `request.json`;
its run reads the request back as an empty mapping, fails on the missing
`script` key with `str(KeyError("script"))`, and ends FAILED — so under
default logging no created job reaches READY. -/
theorem C10_no_request_record (body : JobCreate) (now0 now : ℚ) (jid : String)
    (cfg : ManagerConfig) (env : RunEnv) :
    (create_job false body now0 jid).1 = none ∧
    run_job cfg { env with requestFile := (create_job false body now0 jid).1 }
        (create_job false body now0 jid).2 now =
      ({ id := jid, state := .FAILED, error := some keyErrorScript,
         createdAt := now0, updatedAt := now },
       [.transitioned .SYNTHESIZING, .transitioned .FAILED]) := by
  exact ⟨rfl, rfl⟩

/-- C9: if any two chunks' WAV data disagree in channel count, sample width or
frame rate, `_concat_wavs` raises the fatal mismatch error and produces no
merged audio; when all chunks agree, a fixed silence (`silence_ms`, default
150 ms, computed in raw frames at the shared frame rate as
`sampwidth * nchannels * (framerate * silence_ms / 1000)` zero bytes) is
inserted between each pair of consecutive chunks. -/
theorem C9_concat_mixed_formats (silence_ms : Nat) (w : Wav) (rest : List Wav) :
    concat_wavs silence_ms (w :: rest) =
      if (w :: rest).all (fun x => decide (read_wav_params x = read_wav_params w)) then
        .ok (some ⟨w.nchannels, w.sampwidth, w.framerate,
          List.intercalate
            (List.replicate (w.sampwidth * w.nchannels * (w.framerate * silence_ms / 1000)) 0)
            ((w :: rest).map (fun x => x.frames))⟩)
      else .error "Inconsistent WAV formats across chunks" := by
  simp only [concat_wavs]
  rw [concat_frames_go_spec]
  by_cases h : (w :: rest).all (fun x => decide (read_wav_params x = read_wav_params w)) = true
  · have h' : (w :: rest).all
        (fun x => decide (read_wav_params x = (w.nchannels, w.sampwidth, w.framerate))) = true := h
    simp [h, h']
  · have h' : ¬((w :: rest).all
        (fun x => decide (read_wav_params x = (w.nchannels, w.sampwidth, w.framerate))) = true) := h
    simp [h, h']

/-- Two sorted permutations of each other with pairwise-distinct keys are
equal. -/
theorem sorted_perm_nodup_eq {α κ : Type} [LinearOrder κ] (key : α → κ)
    {l₁ l₂ : List α} (hp : l₁.Perm l₂)
    (h₁ : l₁.Pairwise (fun a b => key a ≤ key b))
    (h₂ : l₂.Pairwise (fun a b => key a ≤ key b))
    (hnd : l₁.Pairwise (fun a b => key a ≠ key b)) : l₁ = l₂ := by
  haveI : IsAntisymm α (fun a b => key a < key b ∨ a = b) := ⟨by
    intro a b hab hba
    rcases hab with h | h
    · rcases hba with h' | h'
      · exact absurd h' (lt_asymm h)
      · exact h'.symm
    · exact h⟩
  have hnd₂ : l₂.Pairwise (fun a b => key a ≠ key b) := ((hp.pairwise_iff (fun {_ _} h => Ne.symm h)).mp hnd)
  have s₁ : l₁.Pairwise (fun a b => key a < key b ∨ a = b) :=
    (h₁.and hnd).imp (fun h => Or.inl (lt_of_le_of_ne h.1 h.2))
  have s₂ : l₂.Pairwise (fun a b => key a < key b ∨ a = b) :=
    (h₂.and hnd₂).imp (fun h => Or.inl (lt_of_le_of_ne h.1 h.2))
  exact List.eq_of_perm_of_sorted hp s₁ s₂

/-- C8: the merged audio of chunked synthesis depends only on the chunks'
original indices and WAV data, not on task completion order — for any
permutation of the collected results (with the distinct indices `enumerate`
assigns), sorting by index and concatenating yields identical merged output. -/
theorem C8_merge_order_invariant (silence_ms : Nat) (rs rs' : List ChunkResult)
    (hp : rs.Perm rs') (hnd : rs.Pairwise (fun a b => a.index ≠ b.index)) :
    merge_results silence_ms rs' = merge_results silence_ms rs := by
  have hsort : sortResults rs' = sortResults rs := by
    apply sorted_perm_nodup_eq (fun r => r.index)
    · exact (List.perm_insertionSort _ rs').trans (hp.symm.trans (List.perm_insertionSort _ rs).symm)
    · exact List.sorted_insertionSort _ rs'
    · exact List.sorted_insertionSort _ rs
    · exact ((((List.perm_insertionSort _ rs').trans hp.symm).pairwise_iff (fun {_ _} h => Ne.symm h)).mpr hnd)
  unfold merge_results
  rw [hsort]

/-- C8 (witness): swapping the completion order of two concrete chunks leaves
the merged output unchanged. -/
theorem C8_witness :
    chunksW.Perm chunksW.reverse ∧
    chunksW.Pairwise (fun a b => a.index ≠ b.index) ∧
    merge_results 150 chunksW.reverse = merge_results 150 chunksW :=
  ⟨(List.reverse_perm chunksW).symm, by decide,
    C8_merge_order_invariant 150 chunksW chunksW.reverse
      (List.reverse_perm chunksW).symm (by decide)⟩

/-- `_normalize_registry` is invariant under registry insertion order (for
duplicate-free, non-empty voice names): the slim mapping is sorted by role. -/
theorem normalize_registry_perm (reg reg' : SpeakerRegistry)
    (hperm : reg.Perm reg')
    (hnd : reg.Pairwise (fun a b => a.1 ≠ b.1))
    (hne : ∀ rc ∈ reg, rc.2.name ≠ "") :
    normalize_registry reg = normalize_registry reg' ∧
    ∃ slim, normalize_registry reg = Except.ok slim := by
  have f : String × VoiceConfig → String × String := fun rc => (rc.1, rc.2.name)
  have hpermf : (reg.map (fun rc => (rc.1, rc.2.name))).Perm
      (reg'.map (fun rc => (rc.1, rc.2.name))) := hperm.map _
  have hany : (reg.map (fun rc => (rc.1, rc.2.name))).any (fun rv => rv.2 = "") = false := by
    rw [List.any_eq_false]
    intro rv hrv
    obtain ⟨rc, hrc, rfl⟩ := List.mem_map.mp hrv
    simpa using hne rc hrc
  have hany' : (reg'.map (fun rc => (rc.1, rc.2.name))).any (fun rv => rv.2 = "") = false := by
    rw [List.any_eq_false]
    intro rv hrv
    obtain ⟨rc, hrc, rfl⟩ := List.mem_map.mp hrv
    exact by simpa using hne rc (hperm.mem_iff.mpr hrc)
  have hndf : (reg.map (fun rc => (rc.1, rc.2.name))).Pairwise (fun a b => a.1 ≠ b.1) := by
    rw [List.pairwise_map]
    exact hnd
  have hsorteq :
      (reg.map (fun rc => (rc.1, rc.2.name))).insertionSort (fun p q => p.1 ≤ q.1) =
      (reg'.map (fun rc => (rc.1, rc.2.name))).insertionSort (fun p q => p.1 ≤ q.1) := by
    apply sorted_perm_nodup_eq (fun p : String × String => p.1)
    · exact (List.perm_insertionSort _ _).trans (hpermf.trans (List.perm_insertionSort _ _).symm)
    · exact List.sorted_insertionSort _ _
    · exact List.sorted_insertionSort _ _
    · exact (((List.perm_insertionSort _ _).pairwise_iff (fun {_ _} h => Ne.symm h)).mpr hndf)
  constructor
  · unfold normalize_registry
    simp only [hany, hany', Bool.false_eq_true, if_false, hsorteq]
  · unfold normalize_registry
    simp only [hany, Bool.false_eq_true, if_false]
    exact ⟨_, rfl⟩

/-- C6: `make_cache_key` is a pure deterministic function of
(script, registry, model): scripts equal up to whitespace deletion yield the
same key, the key depends on the registry only through the sorted role→name
mapping (so registry order is irrelevant), and a registry carrying an empty
voice name is rejected with an error. (The avalanche property of the SHA-256
digest is probabilistic and outside the deterministic model.) -/
theorem C6_make_cache_key_pure :
    (∀ (s₁ s₂ : String) (reg reg' : SpeakerRegistry) (model : String),
      normalize_script s₁.data = normalize_script s₂.data →
      reg.Perm reg' →
      reg.Pairwise (fun a b => a.1 ≠ b.1) →
      (∀ rc ∈ reg, rc.2.name ≠ "") →
      make_cache_key s₁ reg model = make_cache_key s₂ reg' model) ∧
    (∀ (s : String) (reg : SpeakerRegistry) (model : String) (rc : String × VoiceConfig),
      rc ∈ reg → rc.2.name = "" →
      ∃ e, make_cache_key s reg model = Except.error e) := by
  constructor
  · intro s₁ s₂ reg reg' model hws hperm hnd hne
    obtain ⟨hr, slim, hok⟩ := normalize_registry_perm reg reg' hperm hnd hne
    unfold make_cache_key
    rw [← hr, hok]
    simp only [hws]
  · intro s reg model rc hmem hname
    have hany : (reg.map (fun rc => (rc.1, rc.2.name))).any (fun rv => rv.2 = "") = true := by
      rw [List.any_eq_true]
      exact ⟨(rc.1, rc.2.name), List.mem_map.mpr ⟨rc, hmem, rfl⟩, by simpa using hname⟩
    unfold make_cache_key normalize_registry
    simp only [hany, if_true]
    exact ⟨_, rfl⟩

/-- C6 (witness): concrete whitespace-insensitive keys, registry-order
invariance, and empty-name rejection. -/
theorem C6_witness :
    (normalize_script "a b".data = normalize_script "ab".data ∧
     make_cache_key "a b" regW "m" = make_cache_key "ab" regW.reverse "m") ∧
    ((⟨"x", ⟨""⟩⟩ : String × VoiceConfig) ∈ ([⟨"x", ⟨""⟩⟩] : SpeakerRegistry) ∧
     ∃ e, make_cache_key "s" [⟨"x", ⟨""⟩⟩] "m" = Except.error e) := by
  refine ⟨⟨by decide, ?_⟩, ⟨by decide, ?_⟩⟩
  · exact C6_make_cache_key_pure.1 "a b" "ab" regW regW.reverse "m" (by decide)
      (List.reverse_perm regW).symm (by decide) (by decide)
  · exact C6_make_cache_key_pure.2 "s" [⟨"x", ⟨""⟩⟩] "m" ⟨"x", ⟨""⟩⟩ (by decide) (by decide)

/-- Everything `_fix_ref_monotonic` guarantees, by induction along the loop:
length preservation, the minimum-duration floor `start + eps ≤ end`, the bound
`last - eps ≤ first start`, and the chain invariant that consecutive entries
have non-decreasing starts and overlap by at most `eps`. -/
theorem fix_ref_go_spec : ∀ (l : List RefWordTimed) (last : ℚ),
    (fix_ref_monotonic_go last l).length = l.length ∧
    (∀ r ∈ fix_ref_monotonic_go last l, r.start + alignEps ≤ r.stop) ∧
    (∀ r₀ ∈ (fix_ref_monotonic_go last l).head?, last - alignEps ≤ r₀.start) ∧
    List.Chain' (fun a b => a.start ≤ b.start ∧ a.stop - alignEps ≤ b.start)
      (fix_ref_monotonic_go last l)
  | [], last => by simp [fix_ref_monotonic_go]
  | r :: rs, last => by
    have heps : (0 : ℚ) < alignEps := by norm_num [alignEps]
    simp only [fix_ref_monotonic_go]
    set s := if r.start < last - alignEps then last else r.start with hsdef
    set e := if r.stop < s + alignEps then s + alignEps else r.stop with hedef
    obtain ⟨ihlen, ihmem, ihhead, ihchain⟩ := fix_ref_go_spec rs e
    have hs : last - alignEps ≤ s := by
      rw [hsdef]; split_ifs with h <;> linarith
    have he : s + alignEps ≤ e := by
      rw [hedef]; split_ifs with h <;> linarith
    refine ⟨by simp [ihlen], ?_, ?_, ?_⟩
    · intro x hx
      rcases List.mem_cons.mp hx with rfl | hx
      · simpa using he
      · exact ihmem x hx
    · intro r₀ hr₀
      simp only [List.head?_cons, Option.mem_def, Option.some.injEq] at hr₀
      rw [← hr₀]
      exact hs
    · rw [List.chain'_cons']
      refine ⟨?_, ihchain⟩
      intro y hy
      have h1 := ihhead y hy
      exact ⟨by simp only []; linarith, by simp only []; linarith⟩

/-- `equal_run_go` produces one entry per reference token. -/
theorem equal_run_go_length (asr : List ASRWord) (N : Nat) :
    ∀ (texts : List (List Char)) (k : Nat) (prev : Option ℚ),
    (equal_run_go asr N k prev texts).length = texts.length
  | [], _, _ => rfl
  | _ :: ts, k, prev => by
    simp only [equal_run_go]
    split_ifs <;> simp [equal_run_go_length asr N ts]

/-- `tiny_spans` produces one entry per reference token. -/
theorem tiny_spans_length : ∀ (texts : List (List Char)) (t0 : ℚ),
    (tiny_spans t0 texts).length = texts.length
  | [], _ => rfl
  | _ :: ts, t0 => by simp [tiny_spans, tiny_spans_length ts]

/-- The linear-assignment loop produces one entry per reference token. -/
theorem assign_linear_go_length (step t1 : ℚ) : ∀ (texts : List (List Char)) (cur : ℚ),
    (assign_linear_go step t1 texts cur).length = texts.length
  | [], _ => rfl
  | [_], _ => rfl
  | _ :: t2 :: ts, cur => by
    simp [assign_linear_go, assign_linear_go_length step t1 (t2 :: ts) (cur + step)]

/-- `assign_linear` produces one entry per reference token. -/
theorem assign_linear_length (texts : List (List Char)) (t0 t1 : ℚ) :
    (assign_linear texts t0 t1).length = texts.length := by
  unfold assign_linear
  dsimp only
  split_ifs <;> simp [tiny_spans_length, assign_linear_go_length]

/-- Each opcode writes exactly its reference range `[j1, j2)`. -/
theorem opSegment_length (ref_tokens : List (List Char)) (asr : List ASRWord) (op : Op)
    (hj : op.j1 ≤ op.j2) (hj2 : op.j2 ≤ ref_tokens.length)
    (hdel : op.tag = .delete → op.j1 = op.j2) :
    (opSegment ref_tokens asr op).length = op.j2 - op.j1 := by
  have htexts : ((ref_tokens.drop op.j1).take (op.j2 - op.j1)).length = op.j2 - op.j1 := by
    simp only [List.length_take, List.length_drop]
    omega
  unfold opSegment
  cases htag : op.tag with
  | equal => simp [equal_run_go_length, htexts]
  | replace => simp [assign_linear_length, htexts]
  | insert => simp [assign_linear_length, htexts]
  | delete => simp [hdel htag]

/-- A valid opcode list starting at reference position `j` writes exactly the
remaining `ref.length - j` entries. -/
theorem segments_length (ref_tokens : List (List Char)) (asr : List ASRWord) (Nh : Nat) :
    ∀ (ops : List Op) (i j : Nat),
    validOpsFrom Nh ref_tokens.length i j ops = true →
    j ≤ ref_tokens.length →
    ((ops.map (opSegment ref_tokens asr)).flatten).length = ref_tokens.length - j
  | [], i, j => by
    intro h _
    simp only [validOpsFrom, Bool.and_eq_true, decide_eq_true_eq] at h
    simp [h.2]
  | op :: rest, i, j => by
    intro h hjle
    simp only [validOpsFrom, Bool.and_eq_true, decide_eq_true_eq] at h
    obtain ⟨⟨⟨⟨⟨hi1, hj1⟩, hi2⟩, hj2⟩, htag⟩, hrest⟩ := h
    have hj12 : op.j1 ≤ op.j2 ∧ (op.tag = .delete → op.j1 = op.j2) := by
      cases htg : op.tag <;> simp [htg] at htag <;> simp [htg] <;> omega
    have ihl := segments_length ref_tokens asr Nh rest op.i2 op.j2 hrest hj2
    have hseg := opSegment_length ref_tokens asr op hj12.1 hj2 hj12.2
    simp only [List.map_cons, List.flatten_cons, List.length_append, hseg, ihl]
    omega

/-- `attach_idx` preserves length. -/
theorem attach_idx_length : ∀ (l : List RefWordTimed) (i : Nat),
    (attach_idx i l).length = l.length
  | [], _ => rfl
  | _ :: rs, i => by simp [attach_idx, attach_idx_length rs]

/-- `attach_idx` numbers entries consecutively from `i`. -/
theorem attach_idx_map_idx : ∀ (l : List RefWordTimed) (i : Nat),
    (attach_idx i l).map (fun t => t.idx) = List.range' i l.length
  | [], _ => rfl
  | r :: rs, i => by
    simp [attach_idx, attach_idx_map_idx rs (i + 1), List.range'_succ]

/-- Every entry of `attach_idx` carries the times of a source entry. -/
theorem attach_idx_mem_se : ∀ (l : List RefWordTimed) (i : Nat) (t : WordTiming),
    t ∈ attach_idx i l → ∃ r ∈ l, t.s = r.start ∧ t.e = r.stop
  | [], _, _ => by simp [attach_idx]
  | r :: rs, i, t => by
    intro ht
    rcases List.mem_cons.mp ht with rfl | ht
    · exact ⟨r, List.mem_cons_self .., rfl, rfl⟩
    · obtain ⟨r', hr', h1, h2⟩ := attach_idx_mem_se rs (i + 1) t ht
      exact ⟨r', List.mem_cons_of_mem _ hr', h1, h2⟩

/-- `attach_idx` transports the chain invariant from timed reference words to
the emitted entries. -/
theorem attach_idx_chain : ∀ (l : List RefWordTimed) (i : Nat),
    List.Chain' (fun a b => a.start ≤ b.start ∧ a.stop - alignEps ≤ b.start) l →
    List.Chain' (fun a b => a.s ≤ b.s ∧ a.e - alignEps ≤ b.s) (attach_idx i l)
  | [], _ => by simp [attach_idx]
  | r :: rs, i => by
    intro h
    rw [List.chain'_cons'] at h
    simp only [attach_idx]
    rw [List.chain'_cons']
    refine ⟨?_, attach_idx_chain rs (i + 1) h.2⟩
    intro y hy
    cases rs with
    | nil => simp [attach_idx] at hy
    | cons r2 rs' =>
      simp only [attach_idx, List.head?_cons, Option.mem_def, Option.some.injEq] at hy
      have := h.1 r2 (by simp)
      rw [← hy]
      exact this

/-- `_fix_monotonic` preserves length. -/
theorem fix_monotonic_go_length : ∀ (ws : List ASRWord) (last : ℚ),
    (fix_monotonic_go last ws).length = ws.length
  | [], _ => rfl
  | _ :: ws, last => by simp [fix_monotonic_go, fix_monotonic_go_length ws]

/-- C2 (amended): for every non-empty reference token list, every non-empty
hypothesis word list and any valid diff-opcode decomposition, the alignment
output has exactly N entries with `idx = 0..N-1` in order, `start` is
non-decreasing across increasing `idx`, every entry's end is at least the
fixed `eps = 1e-3` after its start, and consecutive entries overlap by at most
`eps`: an entry's start may precede the previous entry's end, but by no more
than `eps` (exact non-overlap does not hold, see the counterexample). -/
theorem C2_alignment_invariants (script : List Char) (asr_raw : List ASRWord) (ops : List Op)
    (href : normalize_and_tokenize script ≠ [])
    (hasr : asr_raw ≠ [])
    (hops : validOps asr_raw.length (normalize_and_tokenize script).length ops = true) :
    (align_core script asr_raw ops).length = (normalize_and_tokenize script).length ∧
    (align_core script asr_raw ops).map (fun t => t.idx) =
      List.range (normalize_and_tokenize script).length ∧
    (∀ t ∈ align_core script asr_raw ops, t.s + alignEps ≤ t.e) ∧
    List.Chain' (fun a b => a.s ≤ b.s ∧ a.e - alignEps ≤ b.s) (align_core script asr_raw ops) := by
  have h2 : (fix_monotonic asr_raw).isEmpty = false := by
    have hl : (fix_monotonic asr_raw).length = asr_raw.length := fix_monotonic_go_length asr_raw 0
    cases hfm : fix_monotonic asr_raw with
    | nil =>
      rw [hfm] at hl
      exact absurd (List.length_eq_zero.mp hl.symm) hasr
    | cons a l => rfl
  have heq : align_core script asr_raw ops =
      attach_idx 0 (assign_timings (normalize_and_tokenize script) (fix_monotonic asr_raw) ops) := by
    unfold align_core
    have h1 : (normalize_and_tokenize script).isEmpty = false := by
      cases hrt : normalize_and_tokenize script with
      | nil => exact absurd hrt href
      | cons a l => rfl
    simp [h1, h2]
  rw [heq]
  have hflat : (((ops.map (opSegment (normalize_and_tokenize script) (fix_monotonic asr_raw))).flatten).length) =
      (normalize_and_tokenize script).length := by
    have := segments_length (normalize_and_tokenize script) (fix_monotonic asr_raw)
      asr_raw.length ops 0 0 hops (Nat.zero_le _)
    simpa using this
  obtain ⟨flen, fmem, fhead, fchain⟩ :=
    fix_ref_go_spec ((ops.map (opSegment (normalize_and_tokenize script) (fix_monotonic asr_raw))).flatten) 0
  have hlen2 : (assign_timings (normalize_and_tokenize script) (fix_monotonic asr_raw) ops).length =
      (normalize_and_tokenize script).length := by
    unfold assign_timings fix_ref_monotonic
    rw [flen, hflat]
  refine ⟨?_, ?_, ?_, ?_⟩
  · rw [attach_idx_length, hlen2]
  · rw [attach_idx_map_idx, hlen2]
    exact (List.range_eq_range' _).symm
  · intro t ht
    obtain ⟨r, hr, h1', h2'⟩ := attach_idx_mem_se _ 0 t ht
    rw [h1', h2']
    exact fmem r hr
  · exact attach_idx_chain _ 0 fchain

unseal Rat.add Rat.sub Rat.mul Rat.inv in
/-- C2 (counterexample): the claim's strict non-overlap clause fails. With
reference tokens `a b`, ASR words `(a, 0, 1), (b, 0.9995, 1.5)` (a regression
within the `eps` tolerance, which `_fix_monotonic` preserves) and the `equal`
opcode difflib produces for identical sequences, the output's second entry
starts at `0.9995`, strictly earlier than the first entry's end `1`. -/
theorem C2_counterexample :
    validOps asrC2.length (normalize_and_tokenize "a b".data).length opsC2 = true ∧
    ((align_core "a b".data asrC2 opsC2).getD 1 ⟨[], 0, 0, 0⟩).s <
      ((align_core "a b".data asrC2 opsC2).getD 0 ⟨[], 0, 0, 0⟩).e := by
  exact ⟨by decide, by decide⟩

/-- C2 (witness): the amended invariants at a concrete instance (two reference
tokens, one hypothesis word, an `equal` plus an `insert` opcode). -/
theorem C2_witness :
    (normalize_and_tokenize "a b".data ≠ [] ∧ asrW ≠ [] ∧
      validOps asrW.length (normalize_and_tokenize "a b".data).length opsW = true) ∧
    ((align_core "a b".data asrW opsW).length = (normalize_and_tokenize "a b".data).length ∧
     (align_core "a b".data asrW opsW).map (fun t => t.idx) =
       List.range (normalize_and_tokenize "a b".data).length ∧
     (∀ t ∈ align_core "a b".data asrW opsW, t.s + alignEps ≤ t.e) ∧
     List.Chain' (fun a b => a.s ≤ b.s ∧ a.e - alignEps ≤ b.s)
       (align_core "a b".data asrW opsW)) :=
  ⟨⟨by decide, by decide, by decide⟩,
   C2_alignment_invariants "a b".data asrW opsW (by decide) (by decide) (by decide)⟩

/-- The cache-miss tail produces one of five result shapes; the cache-record
event appears only in the success shape, after the READY transition. -/
theorem runMiss_shape (env : RunEnv) (st1 : Status) (now : ℚ) :
    (∃ st e, runMiss env st1 now = (st, [], .error e)) ∨
    (∃ st e, runMiss env st1 now = (st, [.synthesized], .error e)) ∨
    (∃ st e, runMiss env st1 now =
      (st, [.synthesized, .transitioned .ALIGNING], .error e)) ∨
    (∃ st e, runMiss env st1 now =
      (st, [.synthesized, .transitioned .ALIGNING, .aligned], .error e)) ∨
    (∃ st, runMiss env st1 now =
      (st, [.synthesized, .transitioned .ALIGNING, .aligned,
            .transitioned .READY, .cacheRecorded], .ok ()) ∧ st.state = .READY) := by
  unfold runMiss
  cases hsy : env.synthRes with
  | error e => exact Or.inl ⟨st1, e, rfl⟩
  | ok u =>
    rcases ht2 : transition st1 .ALIGNING none now with ⟨st2, e2 | u2⟩
    · exact Or.inr (Or.inl ⟨st2, e2, rfl⟩)
    · cases hal : env.alignRes with
      | error e => exact Or.inr (Or.inr (Or.inl ⟨st2, e, rfl⟩))
      | ok timings =>
        dsimp only
        rcases ht3 : transition st2 .READY none now with ⟨st3, e3 | u3⟩
        · exact Or.inr (Or.inr (Or.inr (Or.inl ⟨st3, e3, rfl⟩)))
        · exact Or.inr (Or.inr (Or.inr (Or.inr ⟨st3, rfl,
            (transition_ok_state ht3).1⟩)))

/-- The `try` body of `run_job` produces one of eight result shapes; the
cache-record event appears only in the full-success shape, directly after the
successful READY transition, and every `.ok` result leaves the job READY. -/
theorem runBody_shape (cfg : ManagerConfig) (env : RunEnv) (st0 : Status) (now : ℚ) :
    (∃ st e, runBody cfg env st0 now = (st, [], .error e)) ∨
    (∃ st e, runBody cfg env st0 now = (st, [.transitioned .SYNTHESIZING], .error e)) ∨
    (∃ st e, runBody cfg env st0 now =
      (st, [.transitioned .SYNTHESIZING, .transitioned .ALIGNING], .error e)) ∨
    (∃ st, runBody cfg env st0 now =
      (st, [.transitioned .SYNTHESIZING, .transitioned .ALIGNING, .transitioned .READY],
        .ok ()) ∧ st.state = .READY) ∨
    (∃ st e, runBody cfg env st0 now =
      (st, [.transitioned .SYNTHESIZING, .synthesized], .error e)) ∨
    (∃ st e, runBody cfg env st0 now =
      (st, [.transitioned .SYNTHESIZING, .synthesized, .transitioned .ALIGNING], .error e)) ∨
    (∃ st e, runBody cfg env st0 now =
      (st, [.transitioned .SYNTHESIZING, .synthesized, .transitioned .ALIGNING, .aligned],
        .error e)) ∨
    (∃ st, runBody cfg env st0 now =
      (st, [.transitioned .SYNTHESIZING, .synthesized, .transitioned .ALIGNING, .aligned,
            .transitioned .READY, .cacheRecorded], .ok ()) ∧ st.state = .READY) := by
  unfold runBody
  rcases ht1 : transition st0 .SYNTHESIZING none now with ⟨st1, e1 | u1⟩
  · exact Or.inl ⟨st1, e1, rfl⟩
  · dsimp only
    cases hrf : env.requestFile with
    | none => exact Or.inr (Or.inl ⟨st1, keyErrorScript, rfl⟩)
    | some body =>
      dsimp only
      cases hreg : env.registryRes with
      | error e => exact Or.inr (Or.inl ⟨st1, e, rfl⟩)
      | ok registry =>
        dsimp only
        generalize parse_text body.script.data = pres
        cases pres with
        | error e => exact Or.inr (Or.inl ⟨st1, e, rfl⟩)
        | ok doc =>
          dsimp only
          generalize make_cache_key ⟨build_alignment_text_from_ui (build_ui_script doc)⟩
              registry cfg.tts_model = kres
          cases kres with
          | error e => exact Or.inr (Or.inl ⟨st1, e, rfl⟩)
          | ok cache_key =>
            dsimp only
            generalize env.cacheLookup cache_key = cres
            cases cres with
            | none =>
              dsimp only
              rcases runMiss_shape env st1 now with
                ⟨st, e, hm⟩ | ⟨st, e, hm⟩ | ⟨st, e, hm⟩ | ⟨st, e, hm⟩ | ⟨st, hm, hst⟩
              · exact Or.inr (Or.inl ⟨st, e, by rw [hm]⟩)
              · exact Or.inr (Or.inr (Or.inr (Or.inr (Or.inl ⟨st, e, by rw [hm]⟩))))
              · exact Or.inr (Or.inr (Or.inr (Or.inr (Or.inr (Or.inl ⟨st, e, by rw [hm]⟩)))))
              · exact Or.inr (Or.inr (Or.inr (Or.inr (Or.inr (Or.inr (Or.inl
                  ⟨st, e, by rw [hm]⟩))))))
              · exact Or.inr (Or.inr (Or.inr (Or.inr (Or.inr (Or.inr (Or.inr
                  ⟨st, by rw [hm], hst⟩))))))
            | some origin =>
              dsimp only
              by_cases hready : is_ready_job (env.originState origin) = true
              · rw [if_pos hready]
                by_cases hart :
                    (!env.originAudioExists origin || !env.originTimingsExists origin) = true
                · rw [if_pos hart]
                  exact Or.inr (Or.inl ⟨st1, _, rfl⟩)
                · rw [if_neg hart]
                  generalize ht2 : transition st1 .ALIGNING none now = t2res
                  rcases t2res with ⟨st2, e2 | u2⟩
                  · exact Or.inr (Or.inl ⟨st2, e2, rfl⟩)
                  · dsimp only
                    generalize ht3 : transition st2 .READY none now = t3res
                    rcases t3res with ⟨st3, e3 | u3⟩
                    · exact Or.inr (Or.inr (Or.inl ⟨st3, e3, rfl⟩))
                    · exact Or.inr (Or.inr (Or.inr (Or.inl ⟨st3, rfl,
                        (transition_ok_state ht3).1⟩)))
              · rw [if_neg hready]
                rcases runMiss_shape env st1 now with
                  ⟨st, e, hm⟩ | ⟨st, e, hm⟩ | ⟨st, e, hm⟩ | ⟨st, e, hm⟩ | ⟨st, hm, hst⟩
                · exact Or.inr (Or.inl ⟨st, e, by rw [hm]⟩)
                · exact Or.inr (Or.inr (Or.inr (Or.inr (Or.inl ⟨st, e, by rw [hm]⟩))))
                · exact Or.inr (Or.inr (Or.inr (Or.inr (Or.inr (Or.inl ⟨st, e, by rw [hm]⟩)))))
                · exact Or.inr (Or.inr (Or.inr (Or.inr (Or.inr (Or.inr (Or.inl
                    ⟨st, e, by rw [hm]⟩))))))
                · exact Or.inr (Or.inr (Or.inr (Or.inr (Or.inr (Or.inr (Or.inr
                    ⟨st, by rw [hm], hst⟩))))))

/-- C4: a cache entry is recorded only after the job's transition to READY has
succeeded (every cache-record event in the trace is preceded by a successful
READY transition), and a run that ends FAILED never records a cache entry. -/
theorem C4_record_only_after_ready (cfg : ManagerConfig) (env : RunEnv) (st0 : Status)
    (now : ℚ) :
    recordedOnlyAfterReady (run_job cfg env st0 now).2 = true ∧
    ((run_job cfg env st0 now).1.state = .FAILED →
      Event.cacheRecorded ∉ (run_job cfg env st0 now).2) := by
  unfold run_job
  rcases runBody_shape cfg env st0 now with
    ⟨st, e, hb⟩ | ⟨st, e, hb⟩ | ⟨st, e, hb⟩ | ⟨st, hb, hst⟩ |
    ⟨st, e, hb⟩ | ⟨st, e, hb⟩ | ⟨st, e, hb⟩ | ⟨st, hb, hst⟩
  · rw [hb]
    dsimp only
    generalize transition st .FAILED (some e) now = tf
    rcases tf with ⟨st2, ef | uf⟩ <;> dsimp only <;> exact ⟨by decide, fun _ => by decide⟩
  · rw [hb]
    dsimp only
    generalize transition st .FAILED (some e) now = tf
    rcases tf with ⟨st2, ef | uf⟩ <;> dsimp only <;> exact ⟨by decide, fun _ => by decide⟩
  · rw [hb]
    dsimp only
    generalize transition st .FAILED (some e) now = tf
    rcases tf with ⟨st2, ef | uf⟩ <;> dsimp only <;> exact ⟨by decide, fun _ => by decide⟩
  · rw [hb]
    dsimp only
    refine ⟨by decide, fun hf => ?_⟩
    rw [hst] at hf
    exact absurd hf (by decide)
  · rw [hb]
    dsimp only
    generalize transition st .FAILED (some e) now = tf
    rcases tf with ⟨st2, ef | uf⟩ <;> dsimp only <;> exact ⟨by decide, fun _ => by decide⟩
  · rw [hb]
    dsimp only
    generalize transition st .FAILED (some e) now = tf
    rcases tf with ⟨st2, ef | uf⟩ <;> dsimp only <;> exact ⟨by decide, fun _ => by decide⟩
  · rw [hb]
    dsimp only
    generalize transition st .FAILED (some e) now = tf
    rcases tf with ⟨st2, ef | uf⟩ <;> dsimp only <;> exact ⟨by decide, fun _ => by decide⟩
  · rw [hb]
    dsimp only
    refine ⟨by decide, fun hf => ?_⟩
    rw [hst] at hf
    exact absurd hf (by decide)

/-- C4 (witness): the safety property at a concrete run that ends FAILED. -/
theorem C4_witness :
    recordedOnlyAfterReady (run_job cfgA envA stA 1).2 = true ∧
    (run_job cfgA envA stA 1).1.state = .FAILED ∧
    Event.cacheRecorded ∉ (run_job cfgA envA stA 1).2 :=
  ⟨(C4_record_only_after_ready cfgA envA stA 1).1, by decide,
   (C4_record_only_after_ready cfgA envA stA 1).2 (by decide)⟩

/-- C5: when the cache index maps the computed key to an origin job recorded
READY on disk but with a missing audio or timings artifact, `run_job` raises
the cache-consistency error and the job ends FAILED carrying that message; the
run performs no synthesis (the trace is just SYNTHESIZING then FAILED — it
never falls through to resynthesizing). -/
theorem C5_cache_inconsistency (cfg : ManagerConfig) (env : RunEnv) (st0 : Status) (now : ℚ)
    (body : JobCreate) (reg : SpeakerRegistry) (doc : ParsedDoc) (key : String) (o : String)
    (hst : st0.state = .PENDING)
    (hreq : env.requestFile = some body)
    (hreg : env.registryRes = .ok reg)
    (hparse : parse_text body.script.data = .ok doc)
    (hkey : make_cache_key ⟨build_alignment_text_from_ui (build_ui_script doc)⟩ reg
      cfg.tts_model = .ok key)
    (hlook : env.cacheLookup key = some o)
    (hready : is_ready_job (env.originState o) = true)
    (hmiss : (!env.originAudioExists o || !env.originTimingsExists o) = true) :
    (run_job cfg env st0 now).1.state = .FAILED ∧
    (run_job cfg env st0 now).1.error =
      some ("Cache inconsistency: READY job " ++ o ++ " missing artifacts") ∧
    (run_job cfg env st0 now).2 = [.transitioned .SYNTHESIZING, .transitioned .FAILED] := by
  have hct1 : can_transition .PENDING .SYNTHESIZING = true := rfl
  have h1 : transition st0 .SYNTHESIZING none now =
      ({ st0 with state := .SYNTHESIZING, updatedAt := now }, .ok ()) := by
    unfold transition
    rw [hst]
    simp [hct1, optTruthy]
  have hne : ("Cache inconsistency: READY job " ++ o ++ " missing artifacts" : String) ≠ "" := by
    intro h
    have hlen := congrArg String.length h
    rw [String.length_append, String.length_append] at hlen
    rw [show ("Cache inconsistency: READY job " : String).length = 31 from rfl,
        show (" missing artifacts" : String).length = 18 from rfl,
        show ("" : String).length = 0 from rfl] at hlen
    omega
  have hct2 : can_transition .SYNTHESIZING .FAILED = true := rfl
  have h2 : transition ({ st0 with state := .SYNTHESIZING, updatedAt := now }) JobState.FAILED
      (some ("Cache inconsistency: READY job " ++ o ++ " missing artifacts")) now =
      ({ st0 with
          state := JobState.FAILED,
          error := some ("Cache inconsistency: READY job " ++ o ++ " missing artifacts"),
          updatedAt := now }, .ok ()) := by
    unfold transition
    simp [hct2, optTruthy, hne]
  unfold run_job runBody
  rw [h1]
  dsimp only
  rw [hreq]
  dsimp only
  rw [hreg]
  dsimp only
  rw [hparse]
  dsimp only
  rw [hkey]
  dsimp only
  rw [hlook]
  dsimp only
  rw [if_pos hready, if_pos hmiss]
  dsimp only
  rw [h2]
  exact ⟨rfl, rfl, rfl⟩

/-- C5 (witness): the FAILED outcome at a concrete environment whose cache
index claims a READY origin with both artifacts missing. -/
theorem C5_witness :
    (stA.state = .PENDING ∧
     envHit.requestFile = some bodyA ∧
     envHit.registryRes = .ok [("narrator", ⟨"Kore"⟩)] ∧
     parse_text bodyA.script.data = .ok ⟨[], [], [⟨"narrator".data, none, "Hi.".data, [], []⟩]⟩ ∧
     envHit.cacheLookup
       (sha256Hex (utf8Encode (cacheBlob ['H', 'i', '.'] [("narrator", "Kore")] ['m']))) =
       some "origin1" ∧
     is_ready_job (envHit.originState "origin1") = true ∧
     (!envHit.originAudioExists "origin1" || !envHit.originTimingsExists "origin1") = true) ∧
    ((run_job cfgA envHit stA 1).1.state = .FAILED ∧
     (run_job cfgA envHit stA 1).1.error =
       some ("Cache inconsistency: READY job " ++ "origin1" ++ " missing artifacts") ∧
     (run_job cfgA envHit stA 1).2 =
       [.transitioned .SYNTHESIZING, .transitioned .FAILED]) :=
  ⟨⟨rfl, rfl, rfl, by decide, rfl, rfl, rfl⟩,
   C5_cache_inconsistency cfgA envHit stA 1 bodyA [("narrator", ⟨"Kore"⟩)]
     ⟨[], [], [⟨"narrator".data, none, "Hi.".data, [], []⟩]⟩
     (sha256Hex (utf8Encode (cacheBlob ['H', 'i', '.'] [("narrator", "Kore")] ['m'])))
     "origin1" rfl rfl rfl (by decide) rfl rfl rfl rfl⟩
